import Mathlib

/-!
Verification development for the TinyBERT general-distillation training
script (src/TinyBERT/general_distill.py).  The Python source is shallowly
embedded: each definition below mirrors one function or code region of the
script, with numpy arrays modelled as Lean lists, tensors of attention and
representation values modelled as lists of rationals, and the stateful
training loop modelled as a fold over an explicit loop state.
-/

namespace TinyBERT

/-- One raw example as read from a line of epoch_i.json
(convert_example_to_features, lines 67-71 of general_distill.py). -/
structure RawExample where
  tokens : List String
  segment_ids : List Nat
  is_random_next : Bool
  masked_lm_positions : List Nat
  masked_lm_labels : List String
deriving Repr

/-- The namedtuple InputFeatures of general_distill.py (line 63).
Arrays are lists; the mask and segment arrays are boolean exactly as the
numpy arrays of dtype bool in the source. -/
structure InputFeatures where
  input_ids : List Int
  input_mask : List Bool
  segment_ids : List Bool
  lm_label_ids : List Int
  is_next : Bool
deriving Repr, DecidableEq

/-- The one uncaught failure mode of convert_example_to_features: numpy
fancy assignment on lm_label_array raises IndexError when a masked position
is at or beyond max_seq_length (line 96). -/
inductive EncodeError where
  | indexOut
deriving Repr, DecidableEq

/-- Lines 73-76: tokens longer than max_seq_length are cut to the first
max_seq_length entries. -/
def truncate_tokens (tokens : List String) (max_seq_length : Nat) : List String :=
  if max_seq_length < tokens.length then tokens.take max_seq_length else tokens

/-- Lines 78-80: when the token count and the segment-id count disagree the
provided segment ids are replaced by zeros, one per token. -/
def fix_segment_ids (tokens : List String) (segment_ids : List Nat) : List Nat :=
  if tokens.length ≠ segment_ids.length then List.replicate tokens.length 0 else segment_ids

/-- Models arr = np.full(max_seq_length, fill); arr[:len(xs)] = xs
(lines 86-93), defined for len(xs) ≤ max_seq_length, which the assert on
line 82 guarantees at every use. -/
def pad_assign {α : Type} (max_seq_length : Nat) (fill : α) (xs : List α) : List α :=
  xs ++ List.replicate (max_seq_length - xs.length) fill

/-- Lines 95-96: lm_label_array = np.full(max_seq_length, -1);
lm_label_array[masked_lm_positions] = masked_label_ids, written as a fold of
single-position updates over the position/value pairs. -/
def write_labels (max_seq_length : Nat) (positions : List Nat) (vals : List Int) : List Int :=
  (positions.zip vals).foldl (fun a pv => a.set pv.1 pv.2) (List.replicate max_seq_length (-1))

/-- convert_example_to_features (lines 66-103).  The injected tokenizer
vocabulary map tok stands for tokenizer.convert_tokens_to_ids applied
elementwise.  The result is an error when some masked position falls
outside the label array, the case where the numpy assignment on line 96
raises; every other input produces features. -/
def convert_example_to_features (tok : String → Int) (ex : RawExample)
    (max_seq_length : Nat) : Except EncodeError InputFeatures :=
  let tokens := truncate_tokens ex.tokens max_seq_length
  let segment_ids := fix_segment_ids tokens ex.segment_ids
  let input_ids := tokens.map tok
  if ex.masked_lm_positions.all (fun p => decide (p < max_seq_length)) then
    Except.ok
      { input_ids := pad_assign max_seq_length 0 input_ids
        input_mask := pad_assign max_seq_length false (List.replicate input_ids.length true)
        segment_ids := pad_assign max_seq_length false (segment_ids.map (fun n => n != 0))
        lm_label_ids := write_labels max_seq_length ex.masked_lm_positions
          (ex.masked_lm_labels.map tok)
        is_next := ex.is_random_next }
  else Except.error EncodeError.indexOut

lemma truncate_tokens_length (tokens : List String) (msl : Nat) :
    (truncate_tokens tokens msl).length = min tokens.length msl := by
  unfold truncate_tokens
  split <;> simp [List.length_take] <;> omega

lemma truncate_tokens_of_le (tokens : List String) (msl : Nat)
    (h : tokens.length ≤ msl) : truncate_tokens tokens msl = tokens := by
  unfold truncate_tokens
  rw [if_neg (by omega)]

lemma fix_segment_ids_length (tokens : List String) (seg : List Nat) :
    (fix_segment_ids tokens seg).length = tokens.length := by
  unfold fix_segment_ids
  split
  · simp
  · omega

lemma pad_assign_length {α : Type} (msl : Nat) (fill : α) (xs : List α)
    (h : xs.length ≤ msl) : (pad_assign msl fill xs).length = msl := by
  simp [pad_assign]
  omega

lemma foldl_set_length (l : List (Nat × Int)) : ∀ arr : List Int,
    (l.foldl (fun a pv => a.set pv.1 pv.2) arr).length = arr.length := by
  induction l with
  | nil => intro arr; rfl
  | cons q l ih =>
      intro arr
      simp only [List.foldl_cons]
      rw [ih]
      simp

lemma foldl_set_getElem_ne (l : List (Nat × Int)) (p : Nat) : ∀ arr : List Int,
    (∀ q ∈ l, q.1 ≠ p) →
    (l.foldl (fun a pv => a.set pv.1 pv.2) arr)[p]? = arr[p]? := by
  induction l with
  | nil => intro arr _; rfl
  | cons q l ih =>
      intro arr h
      simp only [List.foldl_cons]
      rw [ih _ (fun r hr => h r (List.mem_cons_of_mem _ hr))]
      exact List.getElem?_set_ne (h q (List.mem_cons_self _ _))

lemma write_labels_length (msl : Nat) (ps : List Nat) (vs : List Int) :
    (write_labels msl ps vs).length = msl := by
  unfold write_labels
  rw [foldl_set_length]
  simp

lemma write_labels_unlisted (msl : Nat) (ps : List Nat) (vs : List Int) (i : Nat)
    (hi : i < msl) (hmem : i ∉ ps) : (write_labels msl ps vs)[i]? = some (-1) := by
  unfold write_labels
  rw [foldl_set_getElem_ne]
  · simp [List.getElem?_replicate, hi]
  · intro q hq
    have := (List.of_mem_zip hq).1
    intro hc
    exact hmem (hc ▸ this)

/-- Claim C4: for every raw example whose token count is at most
max_seq_length, the encoder returns token-id, mask, segment and label arrays
all of length exactly max_seq_length; the mask is 1 exactly on the first
len(tokens) positions and 0 elsewhere; and the label array holds the
sentinel -1 at every position not listed in masked_lm_positions. -/
theorem encode_fixed_width (tok : String → Int) (ex : RawExample) (msl : Nat)
    (f : InputFeatures) (hlen : ex.tokens.length ≤ msl)
    (hok : convert_example_to_features tok ex msl = Except.ok f) :
    f.input_ids.length = msl ∧ f.input_mask.length = msl ∧
    f.segment_ids.length = msl ∧ f.lm_label_ids.length = msl ∧
    f.input_mask = List.replicate ex.tokens.length true
      ++ List.replicate (msl - ex.tokens.length) false ∧
    (∀ i, i < msl → i ∉ ex.masked_lm_positions → f.lm_label_ids[i]? = some (-1)) := by
  have htr : truncate_tokens ex.tokens msl = ex.tokens := truncate_tokens_of_le _ _ hlen
  simp only [convert_example_to_features] at hok
  split at hok
  · rw [Except.ok.injEq] at hok
    subst hok
    refine ⟨?_, ?_, ?_, ?_, ?_, ?_⟩
    · rw [pad_assign_length]
      rw [htr]
      simpa using hlen
    · rw [pad_assign_length]
      rw [htr]
      simpa using hlen
    · rw [pad_assign_length]
      rw [List.length_map, fix_segment_ids_length, htr]
      exact hlen
    · exact write_labels_length _ _ _
    · show pad_assign msl false _ = _
      unfold pad_assign
      rw [htr]
      simp
    · intro i hi hmem
      exact write_labels_unlisted msl _ _ i hi hmem
  · exact absurd hok (by simp)

/-- Witness for encode_fixed_width at tokens ["a","b"], max_seq_length 4,
one masked position 1, with the constant vocabulary map sending every
token to 7. -/
theorem encode_fixed_width_witness :
    ((⟨["a", "b"], [0, 1], false, [1], ["c"]⟩ : RawExample).tokens.length ≤ 4 ∧
      convert_example_to_features (fun _ => 7)
        ⟨["a", "b"], [0, 1], false, [1], ["c"]⟩ 4 =
        Except.ok ⟨[7, 7, 0, 0], [true, true, false, false],
          [false, true, false, false], [-1, 7, -1, -1], false⟩) ∧
    (([7, 7, 0, 0] : List Int).length = 4 ∧
      ([true, true, false, false] : List Bool).length = 4 ∧
      ([false, true, false, false] : List Bool).length = 4 ∧
      ([-1, 7, -1, -1] : List Int).length = 4 ∧
      ([true, true, false, false] : List Bool) = List.replicate 2 true
        ++ List.replicate (4 - 2) false ∧
      (∀ i, i < 4 → i ∉ ([1] : List Nat) →
        ([-1, 7, -1, -1] : List Int)[i]? = some (-1))) := by
  refine ⟨⟨by decide, by rfl⟩, ?_⟩
  have h := encode_fixed_width (fun _ => 7) ⟨["a", "b"], [0, 1], false, [1], ["c"]⟩ 4
    ⟨[7, 7, 0, 0], [true, true, false, false], [false, true, false, false],
      [-1, 7, -1, -1], false⟩ (by decide) (by rfl)
  exact h

/-- Claim C5: for every raw example whose token count exceeds
max_seq_length the encoder keeps exactly the first max_seq_length tokens
(head retained, tail dropped), and when the token count and the segment-id
count disagree after truncation the provided segment ids are discarded in
favour of an all-zero segment array, the example not being rejected. -/
theorem encode_truncation_and_recovery (tok : String → Int) (ex : RawExample) (msl : Nat)
    (hpos : ex.masked_lm_positions.all (fun p => decide (p < msl)) = true) :
    ∃ f, convert_example_to_features tok ex msl = Except.ok f ∧
      (msl < ex.tokens.length → f.input_ids = (ex.tokens.take msl).map tok) ∧
      ((truncate_tokens ex.tokens msl).length ≠ ex.segment_ids.length →
        f.segment_ids = List.replicate msl false) := by
  refine ⟨{ input_ids := pad_assign msl 0 ((truncate_tokens ex.tokens msl).map tok)
            input_mask := pad_assign msl false
              (List.replicate ((truncate_tokens ex.tokens msl).map tok).length true)
            segment_ids := pad_assign msl false
              ((fix_segment_ids (truncate_tokens ex.tokens msl) ex.segment_ids).map
                (fun n => n != 0))
            lm_label_ids := write_labels msl ex.masked_lm_positions
              (ex.masked_lm_labels.map tok)
            is_next := ex.is_random_next }, ?_, ?_, ?_⟩
  · simp only [convert_example_to_features, hpos, if_true]
  · intro hgt
    show pad_assign msl 0 ((truncate_tokens ex.tokens msl).map tok) = _
    have htr : truncate_tokens ex.tokens msl = ex.tokens.take msl := by
      unfold truncate_tokens
      rw [if_pos hgt]
    rw [htr]
    unfold pad_assign
    have hl : ((ex.tokens.take msl).map tok).length = msl := by
      simp [List.length_take]
      omega
    rw [hl]
    simp
  · intro hne
    show pad_assign msl false _ = _
    unfold fix_segment_ids
    rw [if_pos hne]
    rw [List.map_replicate]
    unfold pad_assign
    rw [List.length_replicate]
    have hle : (truncate_tokens ex.tokens msl).length ≤ msl := by
      rw [truncate_tokens_length]
      omega
    show List.replicate _ false ++ List.replicate _ false = _
    rw [← List.replicate_add]
    congr 1
    omega

/-- Witness for encode_truncation_and_recovery: three tokens truncated to
max_seq_length 2, with a three-long segment-id list that mismatches the
truncated token count. -/
theorem encode_truncation_and_recovery_witness :
    (⟨["a", "b", "c"], [0, 0, 1], true, [], []⟩ : RawExample).masked_lm_positions.all
      (fun p => decide (p < 2)) = true ∧
    ∃ f, convert_example_to_features (fun _ => 7)
        ⟨["a", "b", "c"], [0, 0, 1], true, [], []⟩ 2 = Except.ok f ∧
      (2 < (⟨["a", "b", "c"], [0, 0, 1], true, [], []⟩ : RawExample).tokens.length →
        f.input_ids = ((["a", "b", "c"] : List String).take 2).map (fun _ => 7)) ∧
      ((truncate_tokens ["a", "b", "c"] 2).length ≠
          (⟨["a", "b", "c"], [0, 0, 1], true, [], []⟩ : RawExample).segment_ids.length →
        f.segment_ids = List.replicate 2 false) :=
  ⟨by decide, encode_truncation_and_recovery (fun _ => 7)
    ⟨["a", "b", "c"], [0, 0, 1], true, [], []⟩ 2 (by decide)⟩

/-- Claim C10: masked positions get no truncation or bounds recovery — a raw
example containing a masked position at or beyond max_seq_length makes the
encoder fail with the out-of-bounds indexing error instead of recovering,
unlike the truncation and zero-substitution paths for tokens and segments. -/
theorem encode_masked_position_out_of_bounds (tok : String → Int) (ex : RawExample)
    (msl p : Nat) (hp : p ∈ ex.masked_lm_positions) (hge : msl ≤ p) :
    convert_example_to_features tok ex msl = Except.error EncodeError.indexOut := by
  have hall : ¬ (ex.masked_lm_positions.all (fun q => decide (q < msl)) = true) := by
    rw [List.all_eq_true]
    intro h
    have := h p hp
    simp at this
    omega
  simp only [convert_example_to_features]
  rw [if_neg hall]

/-- Witness for encode_masked_position_out_of_bounds: masked position 5 with
max_seq_length 3. -/
theorem encode_masked_position_out_of_bounds_witness :
    ((5 : Nat) ∈ (⟨["a"], [0], false, [5], ["c"]⟩ : RawExample).masked_lm_positions ∧
      3 ≤ 5) ∧
    convert_example_to_features (fun _ => 7) ⟨["a"], [0], false, [5], ["c"]⟩ 3 =
      Except.error EncodeError.indexOut :=
  ⟨⟨by decide, by decide⟩, encode_masked_position_out_of_bounds (fun _ => 7)
    ⟨["a"], [0], false, [5], ["c"]⟩ 3 5 (by decide) (by decide)⟩

/-- Lines 376-377: new_teacher_atts = [teacher_atts[i * layers_per_block +
layers_per_block - 1] for i in range(student_layer_num)].  Python indexing
that would raise IndexError is modelled by the none value of list lookup. -/
def new_teacher_atts {α : Type} (teacher_atts : List α)
    (student_layer_num layers_per_block : Nat) : List (Option α) :=
  (List.range student_layer_num).map
    (fun i => teacher_atts[i * layers_per_block + layers_per_block - 1]?)

/-- Line 389: new_teacher_reps = [teacher_reps[i * layers_per_block] for i
in range(student_layer_num + 1)]. -/
def new_teacher_reps {α : Type} (teacher_reps : List α)
    (student_layer_num layers_per_block : Nat) : List (Option α) :=
  (List.range (student_layer_num + 1)).map
    (fun i => teacher_reps[i * layers_per_block]?)

/-- Claim C3: with layers_per_block = T / S (T the teacher layer count, S
the student layer count, S dividing T), student attention layer i is paired
with teacher attention layer i * layers_per_block + layers_per_block - 1
for 0 ≤ i < S, and student representation i with teacher representation
i * layers_per_block for 0 ≤ i ≤ S, all indices in range; for T = 12 and
S = 4 the selected indices are [2, 5, 8, 11] and [0, 3, 6, 9, 12]. -/
theorem layer_alignment {α : Type} (teacher_atts teacher_reps : List α) (S : Nat)
    (hS : 0 < S) (hT : 0 < teacher_atts.length)
    (hdvd : teacher_atts.length % S = 0)
    (hreps : teacher_reps.length = teacher_atts.length + 1) :
    (∀ i, i < S →
      (new_teacher_atts teacher_atts S (teacher_atts.length / S))[i]? =
        some (teacher_atts[i * (teacher_atts.length / S) +
          (teacher_atts.length / S) - 1]?) ∧
      i * (teacher_atts.length / S) + (teacher_atts.length / S) - 1 <
        teacher_atts.length) ∧
    (∀ i, i ≤ S →
      (new_teacher_reps teacher_reps S (teacher_atts.length / S))[i]? =
        some (teacher_reps[i * (teacher_atts.length / S)]?) ∧
      i * (teacher_atts.length / S) < teacher_reps.length) ∧
    (teacher_atts.length = 12 → S = 4 →
      (List.range S).map
        (fun i => i * (teacher_atts.length / S) +
          (teacher_atts.length / S) - 1) = [2, 5, 8, 11] ∧
      (List.range (S + 1)).map
        (fun i => i * (teacher_atts.length / S)) = [0, 3, 6, 9, 12]) := by
  have hdvd' : S ∣ teacher_atts.length := Nat.dvd_of_mod_eq_zero hdvd
  have hmul : teacher_atts.length / S * S = teacher_atts.length :=
    Nat.div_mul_cancel hdvd'
  have hlpb : 1 ≤ teacher_atts.length / S := by
    rw [Nat.le_div_iff_mul_le hS]
    simpa using Nat.le_of_dvd hT hdvd'
  refine ⟨?_, ?_, ?_⟩
  · intro i hi
    constructor
    · unfold new_teacher_atts
      rw [List.getElem?_map, List.getElem?_range hi]
      rfl
    · have hstep : (i + 1) * (teacher_atts.length / S) ≤ teacher_atts.length := by
        calc (i + 1) * (teacher_atts.length / S)
            ≤ S * (teacher_atts.length / S) := Nat.mul_le_mul_right _ hi
          _ = teacher_atts.length := by rw [Nat.mul_comm]; exact hmul
      have : i * (teacher_atts.length / S) + (teacher_atts.length / S) ≤
          teacher_atts.length := by
        rw [← Nat.succ_mul]
        exact hstep
      omega
  · intro i hi
    constructor
    · unfold new_teacher_reps
      rw [List.getElem?_map, List.getElem?_range (by omega)]
      rfl
    · have hstep : i * (teacher_atts.length / S) ≤ teacher_atts.length := by
        calc i * (teacher_atts.length / S)
            ≤ S * (teacher_atts.length / S) := Nat.mul_le_mul_right _ hi
          _ = teacher_atts.length := by rw [Nat.mul_comm]; exact hmul
      omega
  · intro h12 h4
    subst h4
    rw [h12]
    constructor <;> rfl

/-- Witness for layer_alignment at a 12-layer teacher and 4-layer student,
with concrete layer tensors modelled by their indices. -/
theorem layer_alignment_witness :
    (∀ i, i < 4 →
      (new_teacher_atts (List.range 12) 4 ((List.range 12).length / 4))[i]? =
        some ((List.range 12)[i * ((List.range 12).length / 4) +
          ((List.range 12).length / 4) - 1]?) ∧
      i * ((List.range 12).length / 4) + ((List.range 12).length / 4) - 1 <
        (List.range 12).length) ∧
    (∀ i, i ≤ 4 →
      (new_teacher_reps (List.range 13) 4 ((List.range 12).length / 4))[i]? =
        some ((List.range 13)[i * ((List.range 12).length / 4)]?) ∧
      i * ((List.range 12).length / 4) < (List.range 13).length) ∧
    ((List.range 12).length = 12 → 4 = 4 →
      (List.range 4).map
        (fun i => i * ((List.range 12).length / 4) +
          ((List.range 12).length / 4) - 1) = [2, 5, 8, 11] ∧
      (List.range (4 + 1)).map
        (fun i => i * ((List.range 12).length / 4)) = [0, 3, 6, 9, 12]) :=
  layer_alignment (List.range 12) (List.range 13) 4 (by decide) (by decide)
    (by decide) (by decide)

/-- Lines 380-383: torch.where(att <= -1e2, zeros_like(att), att), applied
pointwise to each attention value. -/
def zero_masked (x : ℚ) : ℚ := if x ≤ -100 then 0 else x

/-- The elementwise squared differences underlying torch.nn.MSELoss. -/
def squared_diffs (a b : List ℚ) : List ℚ :=
  (a.zip b).map (fun p => (p.1 - p.2) ^ 2)

/-- torch.nn.MSELoss with its default mean reduction over elements. -/
def mse_loss (a b : List ℚ) : ℚ :=
  (squared_diffs a b).sum / ((squared_diffs a b).length : ℚ)

/-- One summand of att_loss (line 384): the mean-squared error of a
student/teacher attention pair after sentinel zeroing on both operands. -/
def att_loss_term (s t : List ℚ) : ℚ :=
  mse_loss (s.map zero_masked) (t.map zero_masked)

/-- Claim C7: every attention value at or below -100 is replaced by zero in
both the student and the teacher tensor before the mean-squared-error
comparison, so a position holding the padding sentinel in both operands has
a squared-difference summand of zero in the attention loss. -/
theorem attention_sentinel_zeroed (s t : List ℚ) (i : Nat) (x y : ℚ)
    (hs : s[i]? = some x) (ht : t[i]? = some y)
    (hx : x ≤ -100) (hy : y ≤ -100) :
    (s.map zero_masked)[i]? = some 0 ∧ (t.map zero_masked)[i]? = some 0 ∧
    (squared_diffs (s.map zero_masked) (t.map zero_masked))[i]? = some 0 := by
  have hs0 : (s.map zero_masked)[i]? = some 0 := by
    rw [List.getElem?_map, hs]
    simp [zero_masked, hx]
  have ht0 : (t.map zero_masked)[i]? = some 0 := by
    rw [List.getElem?_map, ht]
    simp [zero_masked, hy]
  refine ⟨hs0, ht0, ?_⟩
  unfold squared_diffs
  rw [List.getElem?_map]
  have hz : ((s.map zero_masked).zip (t.map zero_masked))[i]? = some ((0 : ℚ), (0 : ℚ)) :=
    List.getElem?_zip_eq_some.mpr ⟨hs0, ht0⟩
  rw [hz]
  norm_num

/-- Witness for attention_sentinel_zeroed: student value -100 and teacher
value -250 at position 0. -/
theorem attention_sentinel_zeroed_witness :
    (([-100, 1] : List ℚ)[0]? = some ((-100 : ℚ)) ∧
      ([-250, 2] : List ℚ)[0]? = some ((-250 : ℚ)) ∧
      (-100 : ℚ) ≤ -100 ∧ (-250 : ℚ) ≤ -100) ∧
    (([-100, 1] : List ℚ).map zero_masked)[0]? = some 0 ∧
    (([-250, 2] : List ℚ).map zero_masked)[0]? = some 0 ∧
    (squared_diffs (([-100, 1] : List ℚ).map zero_masked)
      (([-250, 2] : List ℚ).map zero_masked))[0]? = some 0 := by
  refine ⟨⟨by decide, by decide, by norm_num, by norm_num⟩, ?_⟩
  exact attention_sentinel_zeroed [-100, 1] [-250, 2] 0 (-100) (-250)
    (by decide) (by decide) (by norm_num) (by norm_num)

/-- The shard-scanning loop of main (lines 207-223): count consecutive
epoch indices from i upward whose epoch_i.json and epoch_i_metrics.json
both exist (their joint presence is the predicate argument).  A missing
index 0 aborts the program, modelled as none; a later missing index i
freezes num_data_epochs at i; if every index below num_train_epochs is
present, num_data_epochs = num_train_epochs. -/
def numDataEpochsAux (present : Nat → Bool) (num_train_epochs i : Nat) : Option Nat :=
  if h : i < num_train_epochs then
    if present i then numDataEpochsAux present num_train_epochs (i + 1)
    else if i = 0 then none
    else some i
  else some num_train_epochs
termination_by num_train_epochs - i
decreasing_by omega

/-- The whole scan, started at epoch index 0 as in main. -/
def scan_pregenerated (present : Nat → Bool) (num_train_epochs : Nat) : Option Nat :=
  numDataEpochsAux present num_train_epochs 0

/-- PregeneratedDataset.__init__ line 116: the physical shard backing a
logical epoch is epoch % num_data_epochs. -/
def data_epoch (epoch num_data_epochs : Nat) : Nat := epoch % num_data_epochs

lemma numDataEpochsAux_stops (present : Nat → Bool) (nte c : Nat)
    (hc : ∀ j, j < c → present j = true) (hfc : present c = false)
    (hlt : c < nte) :
    ∀ d i, i ≤ c → c - i = d →
      numDataEpochsAux present nte i = if c = 0 then none else some c := by
  intro d
  induction d with
  | zero =>
      intro i hi hd
      have hic : i = c := by omega
      subst hic
      rw [numDataEpochsAux]
      rw [dif_pos hlt, if_neg (by simp [hfc])]
  | succ d ih =>
      intro i hi hd
      have hic : i < c := by omega
      rw [numDataEpochsAux]
      rw [dif_pos (by omega), if_pos (hc i hic)]
      exact ih (i + 1) (by omega) (by omega)

lemma numDataEpochsAux_all (present : Nat → Bool) (nte : Nat)
    (h : ∀ j, j < nte → present j = true) :
    ∀ d i, i ≤ nte → nte - i = d →
      numDataEpochsAux present nte i = some nte := by
  intro d
  induction d with
  | zero =>
      intro i hi hd
      have : i = nte := by omega
      subst this
      rw [numDataEpochsAux]
      rw [dif_neg (by omega)]
  | succ d ih =>
      intro i hi hd
      rw [numDataEpochsAux]
      rw [dif_pos (by omega), if_pos (h i (by omega))]
      exact ih (i + 1) (by omega) (by omega)

/-- Claim C6: when exactly the first c shards exist (c consecutive indices
from 0 with both files present, shard c missing), the scan yields some
number nde of data epochs, and every logical epoch below num_train_epochs
is backed by physical shard epoch % c — the cycling policy. -/
theorem epoch_shard_cycling (present : Nat → Bool) (num_train_epochs c epoch : Nat)
    (hc : ∀ j, j < c → present j = true) (hfc : present c = false)
    (hc0 : 0 < c) (he : epoch < num_train_epochs) :
    ∃ nde, scan_pregenerated present num_train_epochs = some nde ∧
      data_epoch epoch nde = epoch % c := by
  by_cases hlt : c < num_train_epochs
  · refine ⟨c, ?_, rfl⟩
    have := numDataEpochsAux_stops present num_train_epochs c hc hfc hlt c 0
      (by omega) (by omega)
    rw [scan_pregenerated, this, if_neg (by omega)]
  · refine ⟨num_train_epochs, ?_, ?_⟩
    · have hall : ∀ j, j < num_train_epochs → present j = true := by
        intro j hj
        exact hc j (by omega)
      exact numDataEpochsAux_all present num_train_epochs hall num_train_epochs 0
        (by omega) (by omega)
    · unfold data_epoch
      rw [Nat.mod_eq_of_lt he, Nat.mod_eq_of_lt (by omega)]

/-- Witness for epoch_shard_cycling: only shards 0 and 1 exist,
num_train_epochs = 5, and logical epoch 4 resolves to shard 4 % 2 = 0. -/
theorem epoch_shard_cycling_witness :
    ∃ nde, scan_pregenerated (fun i => decide (i < 2)) 5 = some nde ∧
      data_epoch 4 nde = 4 % 2 :=
  epoch_shard_cycling (fun i => decide (i < 2)) 5 2 4
    (by decide) (by decide) (by decide) (by decide)

/-- The configuration fields of main that the loop of lines 332-481 reads.
train_batch_size is the per-device size already divided by
gradient_accumulation_steps (line 250). -/
structure Config where
  train_batch_size : Nat
  gradient_accumulation_steps : Nat
  eval_step : Nat
  local_rank : Int
  attn_scale : ℚ
  rep_scale : ℚ
deriving Repr

/-- The record logged on line 459-463: global step plus the three running
mean losses. -/
structure EvalRecord where
  global_step : Nat
  loss : ℚ
  att_loss : ℚ
  rep_loss : ℚ
deriving Repr, DecidableEq

/-- The mutable loop state of main: the counters of lines 304-306 and
344-349, together with event traces recording, as (epoch, step) pairs, the
batches that ran a forward/backward pass (lines 365-408), the batches at
which optimizer.step fired (line 425), the batches at which gradients were
cleared (line 426), and the eval records emitted on rank 0 (lines 458-481). -/
structure LoopState where
  global_step : Nat
  nb_tr_steps : Nat
  nb_tr_examples : Nat
  tr_loss : ℚ
  tr_att_loss : ℚ
  tr_rep_loss : ℚ
  forward_steps : List (Nat × Nat)
  optim_steps : List (Nat × Nat)
  grad_clear_steps : List (Nat × Nat)
  eval_records : List EvalRecord
deriving Repr, DecidableEq

/-- The state at process start, with the restored (or zero) global step. -/
def initLoopState (g : Nat) : LoopState :=
  { global_step := g, nb_tr_steps := 0, nb_tr_examples := 0,
    tr_loss := 0, tr_att_loss := 0, tr_rep_loss := 0,
    forward_steps := [], optim_steps := [], grad_clear_steps := [],
    eval_records := [] }

/-- Lines 344-349: the running loss sums and counters reset at the start of
every epoch. -/
def resetEpochState (s : LoopState) : LoopState :=
  { s with nb_tr_steps := 0, nb_tr_examples := 0,
           tr_loss := 0, tr_att_loss := 0, tr_rep_loss := 0 }

/-- The body of the inner batch loop (lines 351-481) for one enumerated
batch.  lossOf gives the attention and representation loss the models
produce for the batch at (epoch, step); the skip guards are the resume
fast-forward of lines 354-355 and the batch-size check of lines 359-360;
the loss scaling, counter updates, accumulated optimizer step and rank-0
eval emission follow lines 396-481.  The model-export block of lines
434-455 only performs file I/O and is not part of the loop state. -/
def processBatch (cfg : Config) (lossOf : Nat → Nat → ℚ × ℚ) (ep_step epoch : Nat)
    (s : LoopState) (step bsz : Nat) : LoopState :=
  if step < ep_step then s
  else if bsz ≠ cfg.train_batch_size then s
  else
    let att_loss := (lossOf epoch step).1
    let rep_loss := (lossOf epoch step).2
    let loss0 := cfg.attn_scale * att_loss + cfg.rep_scale * rep_loss
    let loss := if 1 < cfg.gradient_accumulation_steps then
        loss0 / (cfg.gradient_accumulation_steps : ℚ) else loss0
    let tr_att_loss := s.tr_att_loss + att_loss
    let tr_rep_loss := s.tr_rep_loss + rep_loss
    let tr_loss := s.tr_loss + loss
    let nb_tr_steps := s.nb_tr_steps + 1
    let doOpt : Bool := (step + 1) % cfg.gradient_accumulation_steps == 0
    let global_step := if doOpt then s.global_step + 1 else s.global_step
    let mean_loss := tr_loss * (cfg.gradient_accumulation_steps : ℚ) / (nb_tr_steps : ℚ)
    let mean_att_loss :=
      tr_att_loss * (cfg.gradient_accumulation_steps : ℚ) / (nb_tr_steps : ℚ)
    let mean_rep_loss :=
      tr_rep_loss * (cfg.gradient_accumulation_steps : ℚ) / (nb_tr_steps : ℚ)
    let doEval : Bool := (cfg.local_rank == 0) && ((global_step + 1) % cfg.eval_step == 0)
    { global_step := global_step
      nb_tr_steps := nb_tr_steps
      nb_tr_examples := s.nb_tr_examples + bsz
      tr_loss := tr_loss
      tr_att_loss := tr_att_loss
      tr_rep_loss := tr_rep_loss
      forward_steps := s.forward_steps ++ [(epoch, step)]
      optim_steps := if doOpt then s.optim_steps ++ [(epoch, step)] else s.optim_steps
      grad_clear_steps :=
        if doOpt then s.grad_clear_steps ++ [(epoch, step)] else s.grad_clear_steps
      eval_records :=
        if doEval then s.eval_records ++
          [{ global_step := global_step, loss := mean_loss,
             att_loss := mean_att_loss, rep_loss := mean_rep_loss }]
        else s.eval_records }

/-- One epoch of the inner loop: enumerate the batch sizes the dataloader
yields and fold the batch body over them (line 351). -/
def runEpoch (cfg : Config) (lossOf : Nat → Nat → ℚ × ℚ) (ep_step epoch : Nat)
    (batch_sizes : List Nat) (s : LoopState) : LoopState :=
  batch_sizes.enum.foldl
    (fun s p => processBatch cfg lossOf ep_step epoch s p.1 p.2) s

/-- The epoch loop of line 332: for epoch in trange(epochs_run,
num_train_epochs), resetting the per-epoch sums, with the resume step
ep_step read once before the loop and never reset inside it. -/
def runTraining (cfg : Config) (lossOf : Nat → Nat → ℚ × ℚ)
    (epochs_run ep_step num_train_epochs : Nat)
    (batch_sizes : Nat → List Nat) (s : LoopState) : LoopState :=
  (List.range' epochs_run (num_train_epochs - epochs_run)).foldl
    (fun s e => runEpoch cfg lossOf ep_step e (batch_sizes e) (resetEpochState s)) s

/-- The scalar counters of the resumable checkpoint (lines 448-455). -/
structure Snapshot where
  ep_step : Nat
  epoch : Nat
  global_step : Nat
deriving Repr

/-- Lines 304-317 followed by the training loop: when a checkpoint exists
at the canonical resume path its epoch, global step and intra-epoch step
are restored before the loop starts; otherwise all three counters are 0. -/
def mainLoop (cfg : Config) (lossOf : Nat → Nat → ℚ × ℚ)
    (snapshot : Option Snapshot) (num_train_epochs : Nat)
    (batch_sizes : Nat → List Nat) : LoopState :=
  match snapshot with
  | none => runTraining cfg lossOf 0 0 num_train_epochs batch_sizes (initLoopState 0)
  | some snap => runTraining cfg lossOf snap.epoch snap.ep_step num_train_epochs
      batch_sizes (initLoopState snap.global_step)

/-- Loss oracle for concrete evaluations: both loss terms are zero. -/
def lossZero : Nat → Nat → ℚ × ℚ := fun _ _ => (0, 0)

/-- The exact condition under which the body of lines 424-427 runs for the
enumerated batch p = (step, size): the batch is not skipped by the resume
fast-forward, not skipped by the size check, and (step + 1) is a multiple
of gradient_accumulation_steps. -/
def accumTrigger (cfg : Config) (ep_step : Nat) (p : Nat × Nat) : Bool :=
  decide (ep_step ≤ p.1) && (p.2 == cfg.train_batch_size) &&
    ((p.1 + 1) % cfg.gradient_accumulation_steps == 0)

lemma processBatch_skip_resume (cfg : Config) (lossOf : Nat → Nat → ℚ × ℚ)
    (ep_step epoch : Nat) (s : LoopState) (step bsz : Nat) (h : step < ep_step) :
    processBatch cfg lossOf ep_step epoch s step bsz = s := by
  simp [processBatch, h]

lemma processBatch_skip_size (cfg : Config) (lossOf : Nat → Nat → ℚ × ℚ)
    (ep_step epoch : Nat) (s : LoopState) (step bsz : Nat)
    (h : bsz ≠ cfg.train_batch_size) :
    processBatch cfg lossOf ep_step epoch s step bsz = s := by
  simp [processBatch, h]

lemma runEpoch_optim_aux (cfg : Config) (lossOf : Nat → Nat → ℚ × ℚ)
    (ep epoch : Nat) :
    ∀ (l : List (Nat × Nat)) (s : LoopState),
      (l.foldl (fun s p => processBatch cfg lossOf ep epoch s p.1 p.2) s).optim_steps
        = s.optim_steps ++
          (l.filter (accumTrigger cfg ep)).map (fun p => ((epoch, p.1) : Nat × Nat)) ∧
      (l.foldl (fun s p => processBatch cfg lossOf ep epoch s p.1 p.2) s).grad_clear_steps
        = s.grad_clear_steps ++
          (l.filter (accumTrigger cfg ep)).map (fun p => ((epoch, p.1) : Nat × Nat)) ∧
      (l.foldl (fun s p => processBatch cfg lossOf ep epoch s p.1 p.2) s).global_step
        = s.global_step + (l.filter (accumTrigger cfg ep)).length := by
  intro l
  induction l with
  | nil => intro s; simp
  | cons p l ih =>
      intro s
      obtain ⟨i, b⟩ := p
      simp only [List.foldl_cons]
      by_cases h1 : i < ep
      · have ht : accumTrigger cfg ep (i, b) = false := by
          simp only [accumTrigger, Bool.and_eq_false_iff]
          left; left
          simpa using h1
        rw [processBatch_skip_resume cfg lossOf ep epoch s i b h1,
          List.filter_cons_of_neg (by simp [ht])]
        exact ih s
      · by_cases h2 : b = cfg.train_batch_size
        · by_cases h3 : (i + 1) % cfg.gradient_accumulation_steps = 0
          · have ht : accumTrigger cfg ep (i, b) = true := by
              simp only [accumTrigger, Bool.and_eq_true, beq_iff_eq, decide_eq_true_eq]
              exact ⟨⟨by omega, h2⟩, h3⟩
            have ho : (processBatch cfg lossOf ep epoch s i b).optim_steps
                = s.optim_steps ++ [(epoch, i)] := by
              simp [processBatch, h1, h2, h3]
            have hg : (processBatch cfg lossOf ep epoch s i b).grad_clear_steps
                = s.grad_clear_steps ++ [(epoch, i)] := by
              simp [processBatch, h1, h2, h3]
            have hgs : (processBatch cfg lossOf ep epoch s i b).global_step
                = s.global_step + 1 := by
              simp [processBatch, h1, h2, h3]
            obtain ⟨ihA, ihB, ihC⟩ := ih (processBatch cfg lossOf ep epoch s i b)
            rw [List.filter_cons_of_pos ht]
            refine ⟨?_, ?_, ?_⟩
            · rw [ihA, ho]
              simp
            · rw [ihB, hg]
              simp
            · rw [ihC, hgs]
              simp
              omega
          · have ht : accumTrigger cfg ep (i, b) = false := by
              simp only [accumTrigger, Bool.and_eq_false_iff]
              right
              simpa using h3
            have ho : (processBatch cfg lossOf ep epoch s i b).optim_steps
                = s.optim_steps := by
              simp [processBatch, h1, h2, h3]
            have hg : (processBatch cfg lossOf ep epoch s i b).grad_clear_steps
                = s.grad_clear_steps := by
              simp [processBatch, h1, h2, h3]
            have hgs : (processBatch cfg lossOf ep epoch s i b).global_step
                = s.global_step := by
              simp [processBatch, h1, h2, h3]
            obtain ⟨ihA, ihB, ihC⟩ := ih (processBatch cfg lossOf ep epoch s i b)
            rw [List.filter_cons_of_neg (by simp [ht])]
            exact ⟨by rw [ihA, ho], by rw [ihB, hg], by rw [ihC, hgs]⟩
        · have ht : accumTrigger cfg ep (i, b) = false := by
            simp only [accumTrigger, Bool.and_eq_false_iff]
            left; right
            simpa using h2
          rw [processBatch_skip_size cfg lossOf ep epoch s i b h2,
            List.filter_cons_of_neg (by simp [ht])]
          exact ih s

/-- Claim C2 counterexample: with gradient_accumulation_steps 2 and
per-device batch size 2, an epoch whose dataloader yields a full batch and
then a trailing partial batch (sizes [2, 1]) is one complete group of 2 raw
batches, yet no optimizer step, no global-step increment and no gradient
clearing happen at all during it: the partial batch lands exactly on the
trigger index and is skipped before the accumulation check, so the claimed
exactly-once-per-2-raw-batches cadence is violated. -/
theorem grad_accum_no_step_in_full_group :
    (runEpoch ⟨2, 2, 1000, 0, 1, 1⟩ lossZero 0 0 [2, 1] (initLoopState 0)).optim_steps
      = [] ∧
    (runEpoch ⟨2, 2, 1000, 0, 1, 1⟩ lossZero 0 0 [2, 1] (initLoopState 0)).grad_clear_steps
      = [] ∧
    (runEpoch ⟨2, 2, 1000, 0, 1, 1⟩ lossZero 0 0 [2, 1] (initLoopState 0)).global_step
      = 0 := by
  decide

/-- Claim C2 (amended): during an epoch the optimizer step, the global-step
increment and the gradient clearing happen together exactly at the raw
batch indices s with (s + 1) % gradient_accumulation_steps == 0 whose batch
is actually processed (index at least the resume step and size equal to the
per-device batch size); in particular a final incomplete group of fewer
than N batches never triggers them, and a group whose trigger-index batch
is skipped produces no optimizer step either. -/
theorem optim_step_exactly_at_triggers (cfg : Config) (lossOf : Nat → Nat → ℚ × ℚ)
    (ep_step epoch : Nat) (batch_sizes : List Nat) (s : LoopState) :
    (runEpoch cfg lossOf ep_step epoch batch_sizes s).optim_steps
      = s.optim_steps ++ (batch_sizes.enum.filter (accumTrigger cfg ep_step)).map
          (fun p => ((epoch, p.1) : Nat × Nat)) ∧
    (runEpoch cfg lossOf ep_step epoch batch_sizes s).grad_clear_steps
      = s.grad_clear_steps ++ (batch_sizes.enum.filter (accumTrigger cfg ep_step)).map
          (fun p => ((epoch, p.1) : Nat × Nat)) ∧
    (runEpoch cfg lossOf ep_step epoch batch_sizes s).global_step
      = s.global_step + (batch_sizes.enum.filter (accumTrigger cfg ep_step)).length :=
  runEpoch_optim_aux cfg lossOf ep_step epoch batch_sizes.enum s

/-- Claim C9: a batch whose size differs from the configured per-device
batch size is skipped entirely — the loop state is unchanged: no forward
pass is recorded, the running loss sums, example count and step count are
untouched, and no optimizer step, gradient clearing or eval record can
result from it. -/
theorem wrong_size_batch_fully_skipped (cfg : Config) (lossOf : Nat → Nat → ℚ × ℚ)
    (ep_step epoch : Nat) (s : LoopState) (step bsz : Nat)
    (h : bsz ≠ cfg.train_batch_size) :
    processBatch cfg lossOf ep_step epoch s step bsz = s :=
  processBatch_skip_size cfg lossOf ep_step epoch s step bsz h

/-- Witness for wrong_size_batch_fully_skipped: a trailing batch of size 1
under a per-device batch size of 2. -/
theorem wrong_size_batch_fully_skipped_witness :
    (1 ≠ (⟨2, 2, 1000, 0, 1, 1⟩ : Config).train_batch_size) ∧
    processBatch ⟨2, 2, 1000, 0, 1, 1⟩ lossZero 0 0 (initLoopState 0) 1 1
      = initLoopState 0 :=
  ⟨by decide, wrong_size_batch_fully_skipped ⟨2, 2, 1000, 0, 1, 1⟩ lossZero 0 0
    (initLoopState 0) 1 1 (by decide)⟩

/-- Reference count of eval-record emissions for an enumerated batch list,
threading the global step exactly as the loop does: a processed batch first
increments the global step when (step + 1) is a multiple of
gradient_accumulation_steps, and then emits one record on rank 0 when
(global_step + 1) is a multiple of eval_step (line 458). -/
def evalEmitCount (cfg : Config) (ep_step : Nat) : Nat → List (Nat × Nat) → Nat
  | _, [] => 0
  | g, (i, b) :: l =>
    if i < ep_step then evalEmitCount cfg ep_step g l
    else if b ≠ cfg.train_batch_size then evalEmitCount cfg ep_step g l
    else
      let g2 := if ((i + 1) % cfg.gradient_accumulation_steps == 0 : Bool)
        then g + 1 else g
      (if ((cfg.local_rank == 0) && ((g2 + 1) % cfg.eval_step == 0) : Bool)
        then 1 else 0) + evalEmitCount cfg ep_step g2 l

lemma runEpoch_eval_aux (cfg : Config) (lossOf : Nat → Nat → ℚ × ℚ)
    (ep epoch : Nat) :
    ∀ (l : List (Nat × Nat)) (s : LoopState),
      (l.foldl (fun s p => processBatch cfg lossOf ep epoch s p.1 p.2) s).eval_records.length
        = s.eval_records.length + evalEmitCount cfg ep s.global_step l := by
  intro l
  induction l with
  | nil => intro s; simp [evalEmitCount]
  | cons p l ih =>
      intro s
      obtain ⟨i, b⟩ := p
      simp only [List.foldl_cons]
      by_cases h1 : i < ep
      · rw [processBatch_skip_resume cfg lossOf ep epoch s i b h1]
        rw [ih s]
        simp [evalEmitCount, h1]
      · by_cases h2 : b = cfg.train_batch_size
        · rw [ih (processBatch cfg lossOf ep epoch s i b)]
          have hgs : (processBatch cfg lossOf ep epoch s i b).global_step
              = if ((i + 1) % cfg.gradient_accumulation_steps == 0 : Bool)
                then s.global_step + 1 else s.global_step := by
            simp [processBatch, h1, h2]
          have hev : (processBatch cfg lossOf ep epoch s i b).eval_records.length
              = s.eval_records.length +
                (if ((cfg.local_rank == 0) &&
                    (((if ((i + 1) % cfg.gradient_accumulation_steps == 0 : Bool)
                      then s.global_step + 1 else s.global_step) + 1)
                      % cfg.eval_step == 0) : Bool)
                  then 1 else 0) := by
            by_cases h4 : cfg.local_rank = 0 ∧
                ((if (i + 1) % cfg.gradient_accumulation_steps = 0
                  then s.global_step + 1 else s.global_step) + 1)
                  % cfg.eval_step = 0
            · simp [processBatch, h1, h2, h4]
            · simp [processBatch, h1, h2, h4]
          rw [hgs, hev]
          simp only [evalEmitCount, if_neg h1, if_neg (not_not_intro h2)]
          omega
        · rw [processBatch_skip_size cfg lossOf ep epoch s i b h2]
          rw [ih s]
          simp only [evalEmitCount, if_neg h1, if_pos h2]

/-- Claim C8 counterexample: with gradient_accumulation_steps 2,
eval_step 1 and rank 0, an epoch of two full-size batches emits two eval
records while the global step counter increments once — so the record is
not emitted once per eval_step global-step increments: the eval check runs
on every processed batch and the global step is constant between
accumulation boundaries. -/
theorem eval_record_emitted_twice_per_increment :
    (runEpoch ⟨1, 2, 1, 0, 1, 1⟩ lossZero 0 0 [1, 1] (initLoopState 0)).eval_records.length
      = 2 ∧
    (runEpoch ⟨1, 2, 1, 0, 1, 1⟩ lossZero 0 0 [1, 1] (initLoopState 0)).global_step
      = 1 := by
  decide

/-- Claim C8 (amended): on rank 0 an eval record is emitted at exactly
those processed batches for which, after the possible global-step increment
of that batch, (global_step + 1) is a multiple of eval_step; because the
global step stays constant across the batches between two accumulation
boundaries, a qualifying global-step value emits one record at every
processed batch until the next increment — up to
gradient_accumulation_steps records per window — and the emission count per
epoch equals the reference count evalEmitCount. -/
theorem eval_records_match_per_batch_condition (cfg : Config)
    (lossOf : Nat → Nat → ℚ × ℚ) (ep_step epoch : Nat)
    (batch_sizes : List Nat) (s : LoopState) :
    (runEpoch cfg lossOf ep_step epoch batch_sizes s).eval_records.length
      = s.eval_records.length + evalEmitCount cfg ep_step s.global_step batch_sizes.enum :=
  runEpoch_eval_aux cfg lossOf ep_step epoch batch_sizes.enum s

/-- Claim C1, the code evaluated at a failing input: resuming from a
snapshot with intra-epoch step 1, epoch 1 and global step 5, over 3
training epochs of two full-size batches each, restores the counters and
skips step 0 of the recorded epoch 1, but also skips step 0 of the later
epoch 2 — ep_step is read once before the epoch loop (line 316) and never
reset inside it, so the guard of lines 354-355 fast-forwards the start of
every later epoch too, contradicting the claim that every later epoch is
iterated in full from step 0. -/
theorem resume_skips_steps_of_later_epochs :
    (mainLoop ⟨1, 1, 1000, 0, 1, 1⟩ lossZero (some ⟨1, 1, 5⟩) 3
      (fun _ => [1, 1])).forward_steps = [(1, 1), (2, 1)] ∧
    (mainLoop ⟨1, 1, 1000, 0, 1, 1⟩ lossZero (some ⟨1, 1, 5⟩) 3
      (fun _ => [1, 1])).global_step = 7 := by
  decide

end TinyBERT
